import Mathlib

/-!
Shallow embedding of the output subscription broker from
`src/crates/communication/src/output_subscription_manager.rs`.

The broker is a single-threaded actor: one mailbox, one `match` per message,
all state owned by the loop.  We embed it as a pure step function
`ManagerState × Message → Option ManagerState × List Effect`:

* `HashMap<CyclerOutput, HashMap<Uuid, Sender>>` becomes an association list
  with distinct keys (the `WF` predicate); iteration order of a `HashMap` is
  unspecified, the list order is one determinization of it.
* `Uuid::new_v4()` and `get_message_id(id_tracker)` both produce fresh
  identifiers; they are determinized as counters in the state.
* every `sender.send(..)` to the responder / requester / spawned tasks is
  recorded as an `Effect`; `spawn`ed correlation-flow tasks are recorded as
  `Spawn…Flow` effects capturing exactly the data the closure captures, and
  their later completion behaviour is embedded as separate pure functions
  (`subscribe_flow_complete`, `query_flow_complete`).
* a `.unwrap()` on a send to a closed channel panics the running task; the
  aliveness of subscriber channels and of one-shot response channels is a
  parameter, a failed send emits `Effect.Panic` and the step returns `none`
  for the post state (the broker task died, its local state is gone).

`Cycler`, `Output`, `serde_json::Value`, `OutputHierarchy` and `Uuid` are
abstract to the broker (only equality / hashing of keys is used), so they are
represented by `Nat`; channels are represented by `Nat` identities.
-/

namespace Communication

/-- Identity of a producer (`Cycler` in the source); abstract to the broker. -/
abbrev Cycler := Nat

/-- Name of one output of a producer (`Output` in the source); abstract. -/
abbrev Output := Nat

/-- An abstract `serde_json::Value` payload. -/
abbrev Value := Nat

/-- An abstract parsed `OutputHierarchy` (the output catalog). -/
abbrev OutputHierarchy := Nat

/-- A subscription identifier (`Uuid` in the source), determinized to a
counter value. -/
abbrev Uuid := Nat

/-- Identity of one `mpsc::Sender<SubscriberMessage>` subscriber channel. -/
abbrev Chan := Nat

/-- Identity of one `oneshot::Sender` used for a synchronous reply. -/
abbrev OneshotId := Nat

/-- Identity of one `mpsc::Sender<requester::Message>` connection handle. -/
abbrev RequesterId := Nat

/-- Key of the subscription table: `CyclerOutput { cycler, output }`. -/
structure CyclerOutput where
  cycler : Cycler
  output : Output
deriving DecidableEq, Repr

/-- One entry of an `Update` batch: `SubscribedOutput { output, data }`. -/
structure SubscribedOutput where
  output : Output
  data : Value
deriving DecidableEq, Repr

/-- What a subscriber channel can receive (`SubscriberMessage`). -/
inductive SubscriberMessage where
  | Update (value : Value)
  | SubscriptionSuccess
  | SubscriptionFailure (info : String)
deriving DecidableEq, Repr

/-- The variants of `requester::Message` the broker sends upstream. -/
inductive RequesterMessage where
  | SubscribeOutput (id : Nat) (output : CyclerOutput)
  | UnsubscribeOutput (id : Nat) (output : CyclerOutput)
  | GetOutputHierarchy (id : Nat)
deriving DecidableEq, Repr

/-- The control messages of the broker actor (`Message` in the source). -/
inductive Message where
  | Connect (requester : RequesterId)
  | Disconnect
  | Subscribe (output : CyclerOutput) (subscriber : Chan) (response_sender : OneshotId)
  | Unsubscribe (output : CyclerOutput) (uuid : Uuid)
  | Update (cycler : Cycler) (outputs : List SubscribedOutput)
  | UpdateOutputHierarchy (hierarchy : OutputHierarchy)
  | GetOutputHierarchy (response_sender : OneshotId)
deriving DecidableEq, Repr

/-- One observable action of a step of the broker loop, in program order:
sends to the responder / requester channels, spawned correlation-flow tasks
(capturing what the closure captures), synchronous replies, deliveries to
subscriber channels, and a panic of the running task. -/
inductive Effect where
  | AwaitResponse (id : Nat)
  | SendRequester (requester : RequesterId) (message : RequesterMessage)
  | SpawnSubscribeFlow (id : Nat) (subscribers : List Chan)
  | SpawnUnsubscribeFlow (id : Nat)
  | SpawnHierarchyFlow (id : Nat)
  | ReplyUuid (response_sender : OneshotId) (uuid : Uuid)
  | ReplyHierarchy (response_sender : OneshotId) (hierarchy : Option OutputHierarchy)
  | DeliverUpdate (subscriber : Chan) (value : Value)
  | Panic
deriving DecidableEq, Repr

/-- Inner mapping of one output: `HashMap<Uuid, Sender>` as an association
list. -/
abbrev Subscribers := List (Uuid × Chan)

/-- The outer `HashMap<CyclerOutput, HashMap<Uuid, Sender>>` as an association list. -/
abbrev SubscriptionTable := List (CyclerOutput × Subscribers)

/-- Lookup (`HashMap::get`): first entry with the given key. -/
def lookupTable (t : SubscriptionTable) (k : CyclerOutput) : Option Subscribers :=
  match t with
  | [] => none
  | (k', v) :: rest => if k' = k then some v else lookupTable rest k

/-- Insertion (`HashMap::insert`) on the inner mapping: replace the value of an existing
key, otherwise add the pair. -/
def insertPair (m : Subscribers) (u : Uuid) (c : Chan) : Subscribers :=
  match m with
  | [] => [(u, c)]
  | (u', c') :: rest => if u' = u then (u, c) :: rest else (u', c') :: insertPair rest u c

/-- Removal (`HashMap::remove`) on the inner mapping: drop the entry with the given
key, if any. -/
def removePair (m : Subscribers) (u : Uuid) : Subscribers :=
  match m with
  | [] => []
  | (u', c) :: rest => if u' = u then rest else (u', c) :: removePair rest u

/-- In-place mutation of the value stored under an existing key
(`get_mut` / `Entry::Occupied`). -/
def updateTable (t : SubscriptionTable) (k : CyclerOutput) (f : Subscribers → Subscribers) :
    SubscriptionTable :=
  match t with
  | [] => []
  | (k', v) :: rest => if k' = k then (k', f v) :: rest else (k', v) :: updateTable rest k f

/-- Removal (`HashMap::remove`) on the outer table. -/
def removeTable (t : SubscriptionTable) (k : CyclerOutput) : SubscriptionTable :=
  match t with
  | [] => []
  | (k', v) :: rest => if k' = k then rest else (k', v) :: removeTable rest k

/-- The local state of `output_subscription_manager`: the subscription
table, the optional connection handle, the cached hierarchy, and the
determinized `Uuid::new_v4` / `get_message_id` counters. -/
structure ManagerState where
  subscribed_outputs : SubscriptionTable
  requester : Option RequesterId
  hierarchy : Option OutputHierarchy
  next_uuid : Nat
  next_message_id : Nat
deriving DecidableEq, Repr

/-- The state at the top of the loop: empty table, no connection handle, no
cached hierarchy. -/
def initial_state : ManagerState :=
  { subscribed_outputs := []
    requester := none
    hierarchy := none
    next_uuid := 0
    next_message_id := 0 }

/-- The `subscribe` helper: get a message id, register a one-shot handle
with the responder, send `SubscribeOutput`, and spawn a task capturing
exactly the given `subscribers`. -/
def subscribe (output : CyclerOutput) (subscribers : List Chan) (message_id : Nat)
    (requester : RequesterId) : List Effect :=
  [Effect.AwaitResponse message_id,
   Effect.SendRequester requester (RequesterMessage.SubscribeOutput message_id output),
   Effect.SpawnSubscribeFlow message_id subscribers]

/-- The `unsubscribe` helper: message id, responder registration,
`UnsubscribeOutput` request, spawned completion task (which only logs). -/
def unsubscribe (output : CyclerOutput) (message_id : Nat) (requester : RequesterId) :
    List Effect :=
  [Effect.AwaitResponse message_id,
   Effect.SendRequester requester (RequesterMessage.UnsubscribeOutput message_id output),
   Effect.SpawnUnsubscribeFlow message_id]

/-- The `query_output_hierarchy` helper: message id, responder registration,
`GetOutputHierarchy` request, spawned completion task. -/
def query_output_hierarchy (message_id : Nat) (requester : RequesterId) : List Effect :=
  [Effect.AwaitResponse message_id,
   Effect.SendRequester requester (RequesterMessage.GetOutputHierarchy message_id),
   Effect.SpawnHierarchyFlow message_id]

/-- The `add_subscription` helper.  Occupied entry: insert the new
subscriber into the inner mapping, no upstream traffic.  Vacant entry:
issue a `subscribe` flow scoped to the single new channel if a requester is
present, then insert a fresh entry.  Returns the new table, the new message
id counter and the emitted effects. -/
def add_subscription (subscribed_outputs : SubscriptionTable) (uuid : Uuid)
    (output : CyclerOutput) (output_sender : Chan) (requester : Option RequesterId)
    (message_id : Nat) : SubscriptionTable × Nat × List Effect :=
  match lookupTable subscribed_outputs output with
  | some _ =>
    (updateTable subscribed_outputs output (fun m => insertPair m uuid output_sender),
     message_id, [])
  | none =>
    match requester with
    | some r =>
      (subscribed_outputs ++ [(output, [(uuid, output_sender)])], message_id + 1,
       subscribe output [output_sender] message_id r)
    | none =>
      (subscribed_outputs ++ [(output, [(uuid, output_sender)])], message_id, [])

/-- The `Connect` resubscription loop: one `subscribe` flow per table entry,
passing the full current subscriber set `subscribers.values().cloned()`.
Threads the message-id counter; returns it together with the effects. -/
def connect_resubscribe (requester : RequesterId) (message_id : Nat) :
    SubscriptionTable → Nat × List Effect
  | [] => (message_id, [])
  | (output, subscribers) :: rest =>
    let effects := subscribe output (subscribers.map Prod.snd) message_id requester
    let next := connect_resubscribe requester (message_id + 1) rest
    (next.1, effects ++ next.2)

/-- Delivery of one value to each channel of a list, in order; a closed
channel makes the `.unwrap()` panic: earlier deliveries stand, a `Panic`
effect is emitted and the `Bool` result records that the task died. -/
def deliver_all (aliveChan : Chan → Bool) (value : Value) :
    List Chan → List Effect × Bool
  | [] => ([], false)
  | c :: rest =>
    if aliveChan c then
      let next := deliver_all aliveChan value rest
      (Effect.DeliverUpdate c value :: next.1, next.2)
    else ([Effect.Panic], true)

/-- The `Update` handler loop: for each batch entry look up
`CyclerOutput { cycler, output }`; absent entries are skipped, present ones
are fanned out to every registered subscriber channel. -/
def handle_update (aliveChan : Chan → Bool) (t : SubscriptionTable) (cycler : Cycler) :
    List SubscribedOutput → List Effect × Bool
  | [] => ([], false)
  | o :: rest =>
    match lookupTable t { cycler := cycler, output := o.output } with
    | none => handle_update aliveChan t cycler rest
    | some senders =>
      let this := deliver_all aliveChan o.data (senders.map Prod.snd)
      if this.2 then (this.1, true)
      else
        let next := handle_update aliveChan t cycler rest
        (this.1 ++ next.1, next.2)

/-- One iteration of the `while let Some(message) = receiver.recv().await`
loop: the `match message` of `output_subscription_manager`.  Returns the
post state (`none` when the task panicked) and the effects in program
order.  `aliveChan` tells whether a subscriber channel still has a live
receiver; `aliveOneshot` the same for one-shot reply channels. -/
def output_subscription_manager_step (aliveChan : Chan → Bool)
    (aliveOneshot : OneshotId → Bool) (s : ManagerState) (message : Message) :
    Option ManagerState × List Effect :=
  match message with
  | Message.Connect new_requester =>
    let resub := connect_resubscribe new_requester s.next_message_id s.subscribed_outputs
    let query_effects := query_output_hierarchy resub.1 new_requester
    (some { s with
              requester := some new_requester
              next_message_id := resub.1 + 1 },
     resub.2 ++ query_effects)
  | Message.Disconnect => (some { s with requester := none }, [])
  | Message.Subscribe output subscriber response_sender =>
    let uuid := s.next_uuid
    if aliveOneshot response_sender then
      let added := add_subscription s.subscribed_outputs uuid output subscriber
        s.requester s.next_message_id
      (some { s with
                subscribed_outputs := added.1
                next_uuid := s.next_uuid + 1
                next_message_id := added.2.1 },
       Effect.ReplyUuid response_sender uuid :: added.2.2)
    else (none, [Effect.Panic])
  | Message.Unsubscribe output uuid =>
    match lookupTable s.subscribed_outputs output with
    | none => (some s, [])
    | some senders =>
      if removePair senders uuid = [] then
        let table := removeTable s.subscribed_outputs output
        match s.requester with
        | some r =>
          (some { s with
                    subscribed_outputs := table
                    next_message_id := s.next_message_id + 1 },
           unsubscribe output s.next_message_id r)
        | none => (some { s with subscribed_outputs := table }, [])
      else
        (some { s with subscribed_outputs :=
                updateTable s.subscribed_outputs output (fun m => removePair m uuid) }, [])
  | Message.Update cycler outputs =>
    let run := handle_update aliveChan s.subscribed_outputs cycler outputs
    (if run.2 then none else some s, run.1)
  | Message.UpdateOutputHierarchy new_hierarchy =>
    (some { s with hierarchy := some new_hierarchy }, [])
  | Message.GetOutputHierarchy response_sender =>
    if aliveOneshot response_sender then
      (some s, [Effect.ReplyHierarchy response_sender s.hierarchy])
    else (none, [Effect.Panic])

/-- Outcome of an awaited correlation response (`Result<Value, String>`). -/
inductive Response where
  | Ok (value : Value)
  | Err (error : String)
deriving DecidableEq, Repr

/-- Completion of a spawned start-subscription flow: the success or failure
notice is sent to exactly the subscriber channels captured at flow-creation
time. -/
def subscribe_flow_complete (subscribers : List Chan) (response : Response) :
    List (Chan × SubscriberMessage) :=
  let message := match response with
    | Response.Ok _ => SubscriberMessage.SubscriptionSuccess
    | Response.Err error => SubscriberMessage.SubscriptionFailure error
  subscribers.map (fun sender => (sender, message))

/-- Completion of a spawned query-output-hierarchy flow: on success, parse
(`serde_json::from_value`, abstracted as `parse`) and on a parse success
send `UpdateOutputHierarchy` back into the broker mailbox; parse failures
and transport failures are only logged, no message is produced. -/
def query_flow_complete (parse : Value → Option OutputHierarchy) (response : Response) :
    Option Message :=
  match response with
  | Response.Ok value =>
    match parse value with
    | some hierarchy => some (Message.UpdateOutputHierarchy hierarchy)
    | none => none
  | Response.Err _ => none

/-- Well-formedness of the table as an embedding of the `HashMap`: keys are
distinct, and (the invariant of the spec) every present entry has a
non-empty inner mapping. -/
def WF (t : SubscriptionTable) : Prop :=
  (t.map Prod.fst).Nodup ∧ ∀ e ∈ t, e.2 ≠ []

instance (t : SubscriptionTable) : Decidable (WF t) := by
  unfold WF
  infer_instance

/-- Recognizes an upstream `SubscribeOutput` request for a given output on
a given connection handle. -/
def is_start_subscription_for (r : RequesterId) (o : CyclerOutput) : Effect → Bool
  | Effect.SendRequester r' (RequesterMessage.SubscribeOutput _ o') =>
      decide (r' = r) && decide (o' = o)
  | _ => false

/-- Recognizes an upstream `GetOutputHierarchy` (query-output-catalog)
request. -/
def is_hierarchy_query : Effect → Bool
  | Effect.SendRequester _ (RequesterMessage.GetOutputHierarchy _) => true
  | _ => false

/-- A concrete broker state used by witnesses: two tracked outputs, three
subscribers, connected via requester handle 9. -/
def exampleState : ManagerState :=
  { subscribed_outputs :=
      [({ cycler := 0, output := 0 }, [(0, 1)]),
       ({ cycler := 0, output := 1 }, [(1, 2), (2, 3)])]
    requester := some 9
    hierarchy := none
    next_uuid := 3
    next_message_id := 5 }

/-- The same table while disconnected. -/
def exampleStateDisconnected : ManagerState :=
  { exampleState with requester := none }

/-- A state whose only subscriber is channel 5, used with an aliveness
function that declares channel 5 closed. -/
def exampleStateDead : ManagerState :=
  { subscribed_outputs := [({ cycler := 0, output := 0 }, [(0, 5)])]
    requester := none
    hierarchy := none
    next_uuid := 1
    next_message_id := 0 }

/-! Helper lemmas about the association-list embedding of the two
`HashMap` layers. -/

theorem lookupTable_eq_none (t : SubscriptionTable) (k : CyclerOutput) :
    lookupTable t k = none ↔ k ∉ t.map Prod.fst := by
  induction t with
  | nil => simp [lookupTable]
  | cons e rest ih =>
    obtain ⟨k', v⟩ := e
    by_cases h : k' = k
    · subst h
      simp [lookupTable]
    · simp only [lookupTable, if_neg h, List.map_cons, List.mem_cons, ih]
      constructor
      · intro hn hor
        rcases hor with h1 | h1
        · exact h h1.symm
        · exact hn h1
      · intro hn h1
        exact hn (Or.inr h1)

theorem lookupTable_mem {t : SubscriptionTable} {k : CyclerOutput} {v : Subscribers}
    (h : lookupTable t k = some v) : (k, v) ∈ t := by
  induction t with
  | nil => simp [lookupTable] at h
  | cons e rest ih =>
    obtain ⟨k', v'⟩ := e
    by_cases hk : k' = k
    · subst hk
      simp [lookupTable] at h
      simp [h]
    · simp only [lookupTable, if_neg hk] at h
      exact List.mem_cons_of_mem _ (ih h)

theorem lookupTable_append_self {t : SubscriptionTable} {k : CyclerOutput}
    (h : lookupTable t k = none) (v : Subscribers) :
    lookupTable (t ++ [(k, v)]) k = some v := by
  induction t with
  | nil => simp [lookupTable]
  | cons e rest ih =>
    obtain ⟨k', v'⟩ := e
    by_cases hk : k' = k
    · simp [lookupTable, hk] at h
    · simp only [lookupTable, if_neg hk] at h ⊢
      exact ih h

theorem lookupTable_updateTable_self {t : SubscriptionTable} {k : CyclerOutput}
    {v : Subscribers} (h : lookupTable t k = some v) (f : Subscribers → Subscribers) :
    lookupTable (updateTable t k f) k = some (f v) := by
  induction t with
  | nil => simp [lookupTable] at h
  | cons e rest ih =>
    obtain ⟨k', v'⟩ := e
    by_cases hk : k' = k
    · simp [lookupTable, updateTable, hk] at h ⊢
      exact congrArg f h
    · simp only [lookupTable, updateTable, if_neg hk] at h ⊢
      exact ih h

theorem updateTable_self_id {t : SubscriptionTable} {k : CyclerOutput} {v : Subscribers}
    (h : lookupTable t k = some v) (f : Subscribers → Subscribers) (hf : f v = v) :
    updateTable t k f = t := by
  induction t with
  | nil => rfl
  | cons e rest ih =>
    obtain ⟨k', v'⟩ := e
    by_cases hk : k' = k
    · simp [lookupTable, hk] at h
      simp [updateTable, hk, h, hf]
    · simp only [lookupTable, if_neg hk] at h
      simp [updateTable, hk, ih h]

theorem removePair_of_not_mem {m : Subscribers} {u : Uuid}
    (h : u ∉ m.map Prod.fst) : removePair m u = m := by
  induction m with
  | nil => rfl
  | cons e rest ih =>
    obtain ⟨u', c⟩ := e
    simp only [List.map_cons, List.mem_cons] at h
    push_neg at h
    simp [removePair, Ne.symm h.1, ih h.2]

theorem mem_removePair_of_ne {m : Subscribers} {u' : Uuid} {c : Chan} {u : Uuid}
    (h : (u', c) ∈ m) (hne : u' ≠ u) : (u', c) ∈ removePair m u := by
  induction m with
  | nil => simp at h
  | cons e rest ih =>
    obtain ⟨w, d⟩ := e
    rcases List.mem_cons.mp h with h1 | h1
    · obtain ⟨h2, h3⟩ := Prod.mk.injEq .. ▸ h1
      subst h2; subst h3
      simp [removePair, hne]
    · by_cases hw : w = u
      · simpa [removePair, hw] using h1
      · simp only [removePair, if_neg hw]
        exact List.mem_cons_of_mem _ (ih h1)

theorem insertPair_ne_nil (m : Subscribers) (u : Uuid) (c : Chan) :
    insertPair m u c ≠ [] := by
  cases m with
  | nil => simp [insertPair]
  | cons e rest =>
    obtain ⟨u', c'⟩ := e
    by_cases h : u' = u <;> simp [insertPair, h]

theorem mem_insertPair (m : Subscribers) (u : Uuid) (c : Chan) :
    (u, c) ∈ insertPair m u c := by
  induction m with
  | nil => simp [insertPair]
  | cons e rest ih =>
    obtain ⟨u', c'⟩ := e
    by_cases h : u' = u
    · simp [insertPair, h]
    · simp only [insertPair, if_neg h]
      exact List.mem_cons_of_mem _ ih

theorem removeTable_sublist (t : SubscriptionTable) (k : CyclerOutput) :
    List.Sublist (removeTable t k) t := by
  induction t with
  | nil => simp [removeTable]
  | cons e rest ih =>
    obtain ⟨k', v⟩ := e
    by_cases h : k' = k
    · simp only [removeTable, if_pos h]
      exact List.sublist_cons_self _ _
    · simp only [removeTable, if_neg h]
      exact List.Sublist.cons₂ _ ih

theorem WF_removeTable {t : SubscriptionTable} (h : WF t) (k : CyclerOutput) :
    WF (removeTable t k) := by
  obtain ⟨hnd, hne⟩ := h
  refine ⟨List.Nodup.sublist (List.Sublist.map Prod.fst (removeTable_sublist t k)) hnd, ?_⟩
  intro e he
  exact hne e (List.Sublist.subset (removeTable_sublist t k) he)

theorem updateTable_map_fst (t : SubscriptionTable) (k : CyclerOutput)
    (f : Subscribers → Subscribers) :
    (updateTable t k f).map Prod.fst = t.map Prod.fst := by
  induction t with
  | nil => rfl
  | cons e rest ih =>
    obtain ⟨k', v⟩ := e
    by_cases h : k' = k <;> simp [updateTable, h, ih]

theorem mem_updateTable {t : SubscriptionTable} {k : CyclerOutput}
    {f : Subscribers → Subscribers} {e : CyclerOutput × Subscribers}
    (he : e ∈ updateTable t k f) :
    e ∈ t ∨ ∃ v, lookupTable t k = some v ∧ e = (k, f v) := by
  induction t with
  | nil => simp [updateTable] at he
  | cons hd rest ih =>
    obtain ⟨k', v'⟩ := hd
    by_cases hk : k' = k
    · subst hk
      simp only [updateTable, if_pos rfl] at he
      rcases List.mem_cons.mp he with h1 | h1
      · exact Or.inr ⟨v', by simp [lookupTable], h1⟩
      · exact Or.inl (List.mem_cons_of_mem _ h1)
    · simp only [updateTable, if_neg hk] at he
      rcases List.mem_cons.mp he with h1 | h1
      · exact Or.inl (List.mem_cons.mpr (Or.inl h1))
      · rcases ih h1 with h2 | ⟨v, hv, hev⟩
        · exact Or.inl (List.mem_cons_of_mem _ h2)
        · exact Or.inr ⟨v, by simp [lookupTable, hk, hv], hev⟩

theorem WF_updateTable {t : SubscriptionTable} (h : WF t) {k : CyclerOutput}
    {v : Subscribers} (hl : lookupTable t k = some v)
    {f : Subscribers → Subscribers} (hf : f v ≠ []) : WF (updateTable t k f) := by
  obtain ⟨hnd, hne⟩ := h
  refine ⟨by rw [updateTable_map_fst]; exact hnd, ?_⟩
  intro e he
  rcases mem_updateTable he with h1 | ⟨v', hv', hev⟩
  · exact hne e h1
  · rw [hl] at hv'
    obtain rfl : v = v' := by injection hv'
    rw [hev]
    simpa using hf

theorem WF_append_new {t : SubscriptionTable} (h : WF t) {k : CyclerOutput}
    (hl : lookupTable t k = none) (u : Uuid) (c : Chan) :
    WF (t ++ [(k, [(u, c)])]) := by
  obtain ⟨hnd, hne⟩ := h
  constructor
  · rw [List.map_append]
    refine List.Nodup.append hnd (by simp) ?_
    intro a ha hb
    simp at hb
    exact (lookupTable_eq_none t k).mp hl (hb ▸ ha)
  · intro e he
    rcases List.mem_append.mp he with h1 | h1
    · exact hne e h1
    · simp at h1
      rw [h1]
      simp

theorem deliver_all_panics {aliveChan : Chan → Bool} {c : Chan} {cs : List Chan}
    (hc : c ∈ cs) (hdead : aliveChan c = false) (v : Value) :
    (deliver_all aliveChan v cs).2 = true := by
  induction cs with
  | nil => simp at hc
  | cons hd rest ih =>
    by_cases h : aliveChan hd = true
    · simp only [deliver_all, if_pos h]
      rcases List.mem_cons.mp hc with h1 | h1
      · rw [h1] at hdead
        rw [hdead] at h
        cases h
      · exact ih h1
    · simp [deliver_all, h]

theorem lookupTable_removeTable_self {t : SubscriptionTable}
    (hnd : (t.map Prod.fst).Nodup) (k : CyclerOutput) :
    lookupTable (removeTable t k) k = none := by
  induction t with
  | nil => rfl
  | cons e rest ih =>
    obtain ⟨k', v⟩ := e
    have hnd' := List.nodup_cons.mp
      (show (k' :: rest.map Prod.fst).Nodup from hnd)
    by_cases h : k' = k
    · subst h
      simp only [removeTable, if_pos rfl]
      rw [lookupTable_eq_none]
      exact hnd'.1
    · simp only [removeTable, if_neg h, lookupTable, if_neg h]
      exact ih hnd'.2

theorem deliver_all_alive (v : Value) (cs : List Chan) :
    deliver_all (fun _ => true) v cs
      = (cs.map (fun c => Effect.DeliverUpdate c v), false) := by
  induction cs with
  | nil => rfl
  | cons c rest ih => simp [deliver_all, ih]

theorem handle_update_alive_no_panic (t : SubscriptionTable) (cycler : Cycler)
    (outs : List SubscribedOutput) :
    (handle_update (fun _ => true) t cycler outs).2 = false := by
  induction outs with
  | nil => rfl
  | cons o rest ih =>
    cases hl : lookupTable t { cycler := cycler, output := o.output } with
    | none => simpa [handle_update, hl] using ih
    | some senders =>
      simp [handle_update, hl, deliver_all_alive, ih]

theorem handle_update_alive_mem (t : SubscriptionTable) (cycler : Cycler)
    (outs : List SubscribedOutput) (c : Chan) (v : Value) :
    Effect.DeliverUpdate c v ∈ (handle_update (fun _ => true) t cycler outs).1 ↔
      ∃ o ∈ outs, o.data = v ∧ ∃ senders,
        lookupTable t { cycler := cycler, output := o.output } = some senders ∧
        c ∈ senders.map Prod.snd := by
  induction outs with
  | nil => simp [handle_update]
  | cons o rest ih =>
    cases hl : lookupTable t { cycler := cycler, output := o.output } with
    | none =>
      simp only [handle_update, hl, ih, List.mem_cons]
      constructor
      · rintro ⟨o', ho', rest'⟩
        exact ⟨o', Or.inr ho', rest'⟩
      · rintro ⟨o', ho', hv, senders', hs', hc'⟩
        rcases ho' with rfl | ho'
        · rw [hl] at hs'
          cases hs'
        · exact ⟨o', ho', hv, senders', hs', hc'⟩
    | some senders =>
      simp only [handle_update, hl, deliver_all_alive, if_neg (Bool.false_ne_true),
        List.mem_append, List.mem_map, ih, List.mem_cons]
      constructor
      · rintro (⟨c', hc', he⟩ | ⟨o', ho', hv, senders', hs', hc'⟩)
        · obtain ⟨h1, h2⟩ := Effect.DeliverUpdate.injEq .. ▸ he
          subst h1
          subst h2
          exact ⟨o, Or.inl rfl, rfl, senders, hl, hc'⟩
        · exact ⟨o', Or.inr ho', hv, senders', hs', hc'⟩
      · rintro ⟨o', ho', hv, senders', hs', hc'⟩
        rcases ho' with rfl | ho'
        · rw [hl] at hs'
          obtain rfl : senders = senders' := by injection hs'
          exact Or.inl ⟨c, hc', by rw [hv]⟩
        · exact Or.inr ⟨o', ho', hv, senders', hs', hc'⟩

theorem handle_update_alive_only_deliveries (t : SubscriptionTable) (cycler : Cycler)
    (outs : List SubscribedOutput) :
    ∀ e ∈ (handle_update (fun _ => true) t cycler outs).1,
      ∃ c v, e = Effect.DeliverUpdate c v := by
  induction outs with
  | nil => simp [handle_update]
  | cons o rest ih =>
    cases hl : lookupTable t { cycler := cycler, output := o.output } with
    | none => simpa [handle_update, hl] using ih
    | some senders =>
      intro e he
      simp only [handle_update, hl, deliver_all_alive, if_neg (Bool.false_ne_true),
        List.mem_append, List.mem_map] at he
      rcases he with ⟨c', _, he⟩ | he
      · exact ⟨c', o.data, he.symm⟩
      · exact ih e he

theorem connect_resubscribe_countP_start (r : RequesterId) (o : CyclerOutput)
    (t : SubscriptionTable) : ∀ (mid : Nat), (t.map Prod.fst).Nodup →
    (connect_resubscribe r mid t).2.countP (is_start_subscription_for r o)
      = if lookupTable t o = none then 0 else 1 := by
  induction t with
  | nil =>
    intro mid _
    simp [connect_resubscribe, lookupTable]
  | cons e rest ih =>
    obtain ⟨k, subs⟩ := e
    intro mid hnd
    have hnd' := List.nodup_cons.mp (show (k :: rest.map Prod.fst).Nodup from hnd)
    simp only [connect_resubscribe, List.countP_append]
    rw [ih (mid + 1) hnd'.2]
    by_cases hk : k = o
    · subst hk
      have hrest : lookupTable rest k = none := (lookupTable_eq_none rest k).mpr hnd'.1
      simp [subscribe, List.countP_cons, is_start_subscription_for, hrest, lookupTable]
    · simp [subscribe, List.countP_cons, is_start_subscription_for, hk, lookupTable]

theorem connect_resubscribe_countP_query (r : RequesterId) (t : SubscriptionTable) :
    ∀ mid, (connect_resubscribe r mid t).2.countP is_hierarchy_query = 0 := by
  induction t with
  | nil =>
    intro mid
    rfl
  | cons e rest ih =>
    obtain ⟨k, subs⟩ := e
    intro mid
    simp only [connect_resubscribe, List.countP_append]
    rw [ih (mid + 1)]
    simp [subscribe, List.countP_cons, is_hierarchy_query]

theorem connect_resubscribe_targets (r : RequesterId) (t : SubscriptionTable) :
    ∀ mid r' m, Effect.SendRequester r' m ∈ (connect_resubscribe r mid t).2 → r' = r := by
  induction t with
  | nil =>
    intro mid r' m h
    simp [connect_resubscribe] at h
  | cons e rest ih =>
    obtain ⟨k, subs⟩ := e
    intro mid r' m h
    simp only [connect_resubscribe, List.mem_append] at h
    rcases h with h | h
    · simp only [subscribe, List.mem_cons, List.not_mem_nil, or_false] at h
      rcases h with h | h | h
      · exact nomatch h
      · obtain ⟨h1, -⟩ := Effect.SendRequester.injEq .. ▸ h
        exact h1
      · exact nomatch h
    · exact ih (mid + 1) r' m h

theorem connect_resubscribe_mem (r : RequesterId) (t : SubscriptionTable) :
    ∀ (mid : Nat) (o : CyclerOutput) (subs : Subscribers), (o, subs) ∈ t →
      ∃ id, Effect.SendRequester r (RequesterMessage.SubscribeOutput id o)
          ∈ (connect_resubscribe r mid t).2 ∧
        Effect.SpawnSubscribeFlow id (subs.map Prod.snd)
          ∈ (connect_resubscribe r mid t).2 := by
  induction t with
  | nil =>
    intro mid o subs h
    simp at h
  | cons e rest ih =>
    obtain ⟨k, ksubs⟩ := e
    intro mid o subs h
    rcases List.mem_cons.mp h with h1 | h1
    · obtain ⟨h2, h3⟩ := Prod.mk.injEq .. ▸ h1
      subst h2
      subst h3
      refine ⟨mid, ?_, ?_⟩ <;> simp [connect_resubscribe, subscribe, List.mem_append]
    · obtain ⟨id, hm1, hm2⟩ := ih (mid + 1) o subs h1
      refine ⟨id, ?_, ?_⟩
      · simp only [connect_resubscribe, List.mem_append]
        exact Or.inr hm1
      · simp only [connect_resubscribe, List.mem_append]
        exact Or.inr hm2

/-! Claim theorems. -/

/-- C9: `Disconnect` clears the connection handle to absent and changes
nothing else — the subscription table, the cached hierarchy and both
freshness counters are untouched — and no effect (in particular no
upstream message) is emitted. -/
theorem disconnect_clears_only_requester (aliveChan : Chan → Bool)
    (aliveOneshot : OneshotId → Bool) (s : ManagerState) :
    ∃ s', output_subscription_manager_step aliveChan aliveOneshot s Message.Disconnect
        = (some s', []) ∧
      s'.requester = none ∧
      s'.subscribed_outputs = s.subscribed_outputs ∧
      s'.hierarchy = s.hierarchy ∧
      s'.next_uuid = s.next_uuid ∧
      s'.next_message_id = s.next_message_id :=
  ⟨{ s with requester := none }, rfl, rfl, rfl, rfl, rfl, rfl⟩

/-- C7: `GetOutputHierarchy` replies with the cached value, which is absent
in the initial state; `UpdateOutputHierarchy` replaces the cache
unconditionally; a failed query flow — transport failure or parse
failure — produces no mailbox message, and no message other than
`UpdateOutputHierarchy` ever changes the cache, so the previously cached
catalog stays. -/
theorem catalog_staleness (aliveChan : Chan → Bool) (aliveOneshot : OneshotId → Bool)
    (parse : Value → Option OutputHierarchy) (s : ManagerState) (rs : OneshotId)
    (halive : aliveOneshot rs = true) :
    initial_state.hierarchy = none ∧
    output_subscription_manager_step aliveChan aliveOneshot s (Message.GetOutputHierarchy rs)
      = (some s, [Effect.ReplyHierarchy rs s.hierarchy]) ∧
    (∀ h, output_subscription_manager_step aliveChan aliveOneshot s
        (Message.UpdateOutputHierarchy h)
      = (some { s with hierarchy := some h }, [])) ∧
    (∀ error, query_flow_complete parse (Response.Err error) = none) ∧
    (∀ value, parse value = none → query_flow_complete parse (Response.Ok value) = none) ∧
    (∀ m s' effects, (∀ h, m ≠ Message.UpdateOutputHierarchy h) →
      output_subscription_manager_step aliveChan aliveOneshot s m = (some s', effects) →
      s'.hierarchy = s.hierarchy) := by
  refine ⟨rfl, by simp [output_subscription_manager_step, halive], fun h => rfl,
    fun error => rfl, ?_, ?_⟩
  · intro value hv
    simp [query_flow_complete, hv]
  · intro m s' effects hne hstep
    cases m with
    | Connect r =>
      simp only [output_subscription_manager_step, Prod.mk.injEq, Option.some.injEq] at hstep
      rw [← hstep.1]
    | Disconnect =>
      simp only [output_subscription_manager_step, Prod.mk.injEq, Option.some.injEq] at hstep
      rw [← hstep.1]
    | Subscribe o c rs2 =>
      simp only [output_subscription_manager_step] at hstep
      split at hstep
      · simp only [Prod.mk.injEq, Option.some.injEq] at hstep
        rw [← hstep.1]
      · simp at hstep
    | Unsubscribe o u =>
      simp only [output_subscription_manager_step] at hstep
      split at hstep
      · simp only [Prod.mk.injEq, Option.some.injEq] at hstep
        rw [← hstep.1]
      · split at hstep
        · split at hstep
          · simp only [Prod.mk.injEq, Option.some.injEq] at hstep
            rw [← hstep.1]
          · simp only [Prod.mk.injEq, Option.some.injEq] at hstep
            rw [← hstep.1]
        · simp only [Prod.mk.injEq, Option.some.injEq] at hstep
          rw [← hstep.1]
    | Update cy outs =>
      simp only [output_subscription_manager_step] at hstep
      split at hstep
      · simp at hstep
      · simp only [Prod.mk.injEq, Option.some.injEq] at hstep
        rw [← hstep.1]
    | UpdateOutputHierarchy h => exact absurd rfl (hne h)
    | GetOutputHierarchy rs2 =>
      simp only [output_subscription_manager_step] at hstep
      split at hstep
      · simp only [Prod.mk.injEq, Option.some.injEq] at hstep
        rw [← hstep.1]
      · simp at hstep

/-- C7 witness: the theorem applied to a held one-shot receiver at a
concrete state. -/
theorem catalog_staleness_witness :
    (fun _ : OneshotId => true) 100 = true ∧
    (initial_state.hierarchy = none ∧
     output_subscription_manager_step (fun _ => true) (fun _ => true) exampleState
       (Message.GetOutputHierarchy 100)
       = (some exampleState, [Effect.ReplyHierarchy 100 exampleState.hierarchy]) ∧
     (∀ h, output_subscription_manager_step (fun _ => true) (fun _ => true) exampleState
         (Message.UpdateOutputHierarchy h)
       = (some { exampleState with hierarchy := some h }, [])) ∧
     (∀ error, query_flow_complete (fun _ => none) (Response.Err error) = none) ∧
     (∀ value, (fun _ : Value => (none : Option OutputHierarchy)) value = none →
        query_flow_complete (fun _ => none) (Response.Ok value) = none) ∧
     (∀ m s' effects, (∀ h, m ≠ Message.UpdateOutputHierarchy h) →
        output_subscription_manager_step (fun _ => true) (fun _ => true) exampleState m
          = (some s', effects) →
        s'.hierarchy = exampleState.hierarchy)) :=
  ⟨rfl, catalog_staleness (fun _ => true) (fun _ => true) (fun _ => none)
    exampleState 100 rfl⟩

/-- C1: a `Subscribe` for an output already present in the table only adds
the new channel to that output's inner mapping — the only effect is the
synchronous `Uuid` reply, so no upstream `SubscribeOutput` request and no
spawned flow — and a start-subscription flow notifies exactly the channels
captured at its creation, so a subscriber joining after the flow was
created is not among the channels its success/failure notice reaches. -/
theorem subscribe_present_no_upstream (aliveChan : Chan → Bool)
    (aliveOneshot : OneshotId → Bool) (s : ManagerState) (output : CyclerOutput)
    (subscriber : Chan) (rs : OneshotId) (senders : Subscribers)
    (hpresent : lookupTable s.subscribed_outputs output = some senders)
    (halive : aliveOneshot rs = true) :
    ∃ s',
      output_subscription_manager_step aliveChan aliveOneshot s
          (Message.Subscribe output subscriber rs)
        = (some s', [Effect.ReplyUuid rs s.next_uuid]) ∧
      lookupTable s'.subscribed_outputs output
        = some (insertPair senders s.next_uuid subscriber) ∧
      (s.next_uuid, subscriber) ∈ insertPair senders s.next_uuid subscriber ∧
      (∀ subs response c m, (c, m) ∈ subscribe_flow_complete subs response → c ∈ subs) ∧
      (∀ subs response c, c ∈ subs → ∃ m, (c, m) ∈ subscribe_flow_complete subs response) := by
  refine ⟨{ s with
              subscribed_outputs := updateTable s.subscribed_outputs output
                (fun m => insertPair m s.next_uuid subscriber)
              next_uuid := s.next_uuid + 1 }, ?_, ?_, mem_insertPair .., ?_, ?_⟩
  · simp [output_subscription_manager_step, halive, add_subscription, hpresent]
  · exact lookupTable_updateTable_self hpresent _
  · intro subs response c m hm
    simp only [subscribe_flow_complete, List.mem_map] at hm
    obtain ⟨c', hc', he⟩ := hm
    obtain ⟨h1, -⟩ := Prod.mk.injEq .. ▸ he
    rw [← h1]
    exact hc'
  · intro subs response c hc
    cases response with
    | Ok v =>
      refine ⟨SubscriberMessage.SubscriptionSuccess, ?_⟩
      simp only [subscribe_flow_complete, List.mem_map]
      exact ⟨c, hc, rfl⟩
    | Err e =>
      refine ⟨SubscriberMessage.SubscriptionFailure e, ?_⟩
      simp only [subscribe_flow_complete, List.mem_map]
      exact ⟨c, hc, rfl⟩

/-- C1 witness: subscribing channel 4 to the already-present output (0,0)
of `exampleState`. -/
theorem subscribe_present_no_upstream_witness :
    lookupTable exampleState.subscribed_outputs { cycler := 0, output := 0 }
      = some [(0, 1)] ∧
    (fun _ : OneshotId => true) 100 = true ∧
    (∃ s',
      output_subscription_manager_step (fun _ => true) (fun _ => true) exampleState
          (Message.Subscribe { cycler := 0, output := 0 } 4 100)
        = (some s', [Effect.ReplyUuid 100 exampleState.next_uuid]) ∧
      lookupTable s'.subscribed_outputs { cycler := 0, output := 0 }
        = some (insertPair [(0, 1)] exampleState.next_uuid 4) ∧
      (exampleState.next_uuid, 4) ∈ insertPair [(0, 1)] exampleState.next_uuid 4 ∧
      (∀ subs response c m, (c, m) ∈ subscribe_flow_complete subs response → c ∈ subs) ∧
      (∀ subs response c, c ∈ subs → ∃ m, (c, m) ∈ subscribe_flow_complete subs response)) :=
  ⟨rfl, rfl, subscribe_present_no_upstream (fun _ => true) (fun _ => true) exampleState
    { cycler := 0, output := 0 } 4 100 [(0, 1)] rfl rfl⟩

/-- C2: `Connect` stores the new handle (replacing any previous one) and
leaves the table and cached hierarchy untouched; among the emitted effects
there is exactly one upstream `SubscribeOutput` per output present in the
table (none for absent outputs) and exactly one `GetOutputHierarchy`;
every upstream message goes to the new handle; and each resubscription's
spawned flow captures the full current subscriber-channel set of its
output. -/
theorem connect_replays_tracked_set (aliveChan : Chan → Bool)
    (aliveOneshot : OneshotId → Bool) (s : ManagerState) (r : RequesterId)
    (hwf : WF s.subscribed_outputs) :
    ∃ s' effects,
      output_subscription_manager_step aliveChan aliveOneshot s (Message.Connect r)
        = (some s', effects) ∧
      s'.requester = some r ∧
      s'.subscribed_outputs = s.subscribed_outputs ∧
      s'.hierarchy = s.hierarchy ∧
      (∀ o, effects.countP (is_start_subscription_for r o)
        = if lookupTable s.subscribed_outputs o = none then 0 else 1) ∧
      effects.countP is_hierarchy_query = 1 ∧
      (∀ r' m, Effect.SendRequester r' m ∈ effects → r' = r) ∧
      (∀ o senders, lookupTable s.subscribed_outputs o = some senders →
        ∃ id, Effect.SendRequester r (RequesterMessage.SubscribeOutput id o) ∈ effects ∧
          Effect.SpawnSubscribeFlow id (senders.map Prod.snd) ∈ effects) := by
  refine ⟨{ s with
              requester := some r
              next_message_id :=
                (connect_resubscribe r s.next_message_id s.subscribed_outputs).1 + 1 },
    (connect_resubscribe r s.next_message_id s.subscribed_outputs).2
      ++ query_output_hierarchy
          (connect_resubscribe r s.next_message_id s.subscribed_outputs).1 r,
    rfl, rfl, rfl, rfl, ?_, ?_, ?_, ?_⟩
  · intro o
    rw [List.countP_append,
      connect_resubscribe_countP_start r o s.subscribed_outputs s.next_message_id hwf.1]
    simp [query_output_hierarchy, List.countP_cons, is_start_subscription_for]
  · rw [List.countP_append, connect_resubscribe_countP_query]
    simp [query_output_hierarchy, List.countP_cons, is_hierarchy_query]
  · intro r' m hm
    rcases List.mem_append.mp hm with h | h
    · exact connect_resubscribe_targets r s.subscribed_outputs s.next_message_id r' m h
    · simp only [query_output_hierarchy, List.mem_cons, List.not_mem_nil, or_false] at h
      rcases h with h | h | h
      · exact nomatch h
      · obtain ⟨h1, -⟩ := Effect.SendRequester.injEq .. ▸ h
        exact h1
      · exact nomatch h
  · intro o senders hlk
    obtain ⟨id, h1, h2⟩ := connect_resubscribe_mem r s.subscribed_outputs
      s.next_message_id o senders (lookupTable_mem hlk)
    exact ⟨id, List.mem_append.mpr (Or.inl h1), List.mem_append.mpr (Or.inl h2)⟩

/-- C2 witness: connecting handle 7 at `exampleState`, whose table holds
two outputs. -/
theorem connect_replays_tracked_set_witness :
    WF exampleState.subscribed_outputs ∧
    (∃ s' effects,
      output_subscription_manager_step (fun _ => true) (fun _ => true) exampleState
          (Message.Connect 7)
        = (some s', effects) ∧
      s'.requester = some 7 ∧
      s'.subscribed_outputs = exampleState.subscribed_outputs ∧
      s'.hierarchy = exampleState.hierarchy ∧
      (∀ o, effects.countP (is_start_subscription_for 7 o)
        = if lookupTable exampleState.subscribed_outputs o = none then 0 else 1) ∧
      effects.countP is_hierarchy_query = 1 ∧
      (∀ r' m, Effect.SendRequester r' m ∈ effects → r' = 7) ∧
      (∀ o senders, lookupTable exampleState.subscribed_outputs o = some senders →
        ∃ id, Effect.SendRequester 7 (RequesterMessage.SubscribeOutput id o) ∈ effects ∧
          Effect.SpawnSubscribeFlow id (senders.map Prod.snd) ∈ effects)) :=
  ⟨by decide, connect_replays_tracked_set (fun _ => true) (fun _ => true)
    exampleState 7 (by decide)⟩

/-- C8: a `Subscribe` processed while disconnected emits only the
synchronous `Uuid` reply — in particular no upstream message — yet still
records the subscriber under its output, and a later `Connect` issues an
upstream `SubscribeOutput` for that pending output. -/
theorem subscribe_disconnected_pending (aliveChan : Chan → Bool)
    (aliveOneshot : OneshotId → Bool) (s : ManagerState) (output : CyclerOutput)
    (subscriber : Chan) (rs : OneshotId) (r : RequesterId)
    (hdisc : s.requester = none)
    (habsent : lookupTable s.subscribed_outputs output = none)
    (halive : aliveOneshot rs = true) :
    ∃ s',
      output_subscription_manager_step aliveChan aliveOneshot s
          (Message.Subscribe output subscriber rs)
        = (some s', [Effect.ReplyUuid rs s.next_uuid]) ∧
      lookupTable s'.subscribed_outputs output = some [(s.next_uuid, subscriber)] ∧
      ∃ s'' effects2,
        output_subscription_manager_step aliveChan aliveOneshot s' (Message.Connect r)
          = (some s'', effects2) ∧
        ∃ id, Effect.SendRequester r (RequesterMessage.SubscribeOutput id output)
          ∈ effects2 := by
  refine ⟨{ s with
              subscribed_outputs :=
                s.subscribed_outputs ++ [(output, [(s.next_uuid, subscriber)])]
              next_uuid := s.next_uuid + 1 },
    ?_, lookupTable_append_self habsent _, ?_⟩
  · simp [output_subscription_manager_step, halive, add_subscription, habsent, hdisc]
  · refine ⟨_, _, rfl, ?_⟩
    have hmem : (output, [(s.next_uuid, subscriber)])
        ∈ s.subscribed_outputs ++ [(output, [(s.next_uuid, subscriber)])] :=
      List.mem_append.mpr (Or.inr (List.mem_singleton.mpr rfl))
    obtain ⟨id, h1, -⟩ := connect_resubscribe_mem r
      (s.subscribed_outputs ++ [(output, [(s.next_uuid, subscriber)])])
      s.next_message_id output [(s.next_uuid, subscriber)] hmem
    exact ⟨id, List.mem_append.mpr (Or.inl h1)⟩

/-- C8 witness: subscribing channel 4 to the untracked output (1,1) at the
disconnected `exampleStateDisconnected`, then connecting handle 7. -/
theorem subscribe_disconnected_pending_witness :
    exampleStateDisconnected.requester = none ∧
    lookupTable exampleStateDisconnected.subscribed_outputs
      { cycler := 1, output := 1 } = none ∧
    (∃ s',
      output_subscription_manager_step (fun _ => true) (fun _ => true)
          exampleStateDisconnected
          (Message.Subscribe { cycler := 1, output := 1 } 4 100)
        = (some s', [Effect.ReplyUuid 100 exampleStateDisconnected.next_uuid]) ∧
      lookupTable s'.subscribed_outputs { cycler := 1, output := 1 }
        = some [(exampleStateDisconnected.next_uuid, 4)] ∧
      ∃ s'' effects2,
        output_subscription_manager_step (fun _ => true) (fun _ => true) s'
            (Message.Connect 7)
          = (some s'', effects2) ∧
        ∃ id, Effect.SendRequester 7
            (RequesterMessage.SubscribeOutput id { cycler := 1, output := 1 })
          ∈ effects2) :=
  ⟨rfl, rfl, subscribe_disconnected_pending (fun _ => true) (fun _ => true)
    exampleStateDisconnected { cycler := 1, output := 1 } 4 100 7 rfl rfl rfl⟩

/-- C10: if the one-shot reply receiver of a `Subscribe` or
`GetOutputHierarchy` is already dropped when the broker processes the
message, the `.unwrap()` on the reply send panics the broker task — no
post state, only a `Panic` effect; if the caller still holds the receiver,
the reply (the fresh `Uuid`, resp. the cached hierarchy) is sent. -/
theorem reply_send_unwrap (aliveChan : Chan → Bool) (aliveOneshot : OneshotId → Bool)
    (s : ManagerState) (output : CyclerOutput) (subscriber : Chan)
    (rs1 rs2 : OneshotId) (hdead : aliveOneshot rs1 = false)
    (hheld : aliveOneshot rs2 = true) :
    output_subscription_manager_step aliveChan aliveOneshot s
        (Message.Subscribe output subscriber rs1) = (none, [Effect.Panic]) ∧
    output_subscription_manager_step aliveChan aliveOneshot s
        (Message.GetOutputHierarchy rs1) = (none, [Effect.Panic]) ∧
    (∃ s' effects,
      output_subscription_manager_step aliveChan aliveOneshot s
          (Message.Subscribe output subscriber rs2) = (some s', effects) ∧
      effects.head? = some (Effect.ReplyUuid rs2 s.next_uuid)) ∧
    output_subscription_manager_step aliveChan aliveOneshot s
        (Message.GetOutputHierarchy rs2)
      = (some s, [Effect.ReplyHierarchy rs2 s.hierarchy]) := by
  refine ⟨by simp [output_subscription_manager_step, hdead],
    by simp [output_subscription_manager_step, hdead], ?_,
    by simp [output_subscription_manager_step, hheld]⟩
  refine ⟨{ s with
              subscribed_outputs := (add_subscription s.subscribed_outputs s.next_uuid
                output subscriber s.requester s.next_message_id).1
              next_uuid := s.next_uuid + 1
              next_message_id := (add_subscription s.subscribed_outputs s.next_uuid
                output subscriber s.requester s.next_message_id).2.1 },
    Effect.ReplyUuid rs2 s.next_uuid :: (add_subscription s.subscribed_outputs s.next_uuid
      output subscriber s.requester s.next_message_id).2.2, ?_, rfl⟩
  simp [output_subscription_manager_step, hheld]

/-- C10 witness: one-shot 0 dropped, one-shot 100 held, at `exampleState`. -/
theorem reply_send_unwrap_witness :
    (fun rs : OneshotId => decide (rs ≠ 0)) 0 = false ∧
    (fun rs : OneshotId => decide (rs ≠ 0)) 100 = true ∧
    (output_subscription_manager_step (fun _ => true) (fun rs => decide (rs ≠ 0))
        exampleState (Message.Subscribe { cycler := 1, output := 1 } 4 0)
      = (none, [Effect.Panic]) ∧
     output_subscription_manager_step (fun _ => true) (fun rs => decide (rs ≠ 0))
        exampleState (Message.GetOutputHierarchy 0) = (none, [Effect.Panic]) ∧
     (∃ s' effects,
       output_subscription_manager_step (fun _ => true) (fun rs => decide (rs ≠ 0))
           exampleState (Message.Subscribe { cycler := 1, output := 1 } 4 100)
         = (some s', effects) ∧
       effects.head? = some (Effect.ReplyUuid 100 exampleState.next_uuid)) ∧
     output_subscription_manager_step (fun _ => true) (fun rs => decide (rs ≠ 0))
        exampleState (Message.GetOutputHierarchy 100)
      = (some exampleState, [Effect.ReplyHierarchy 100 exampleState.hierarchy])) :=
  ⟨rfl, rfl, reply_send_unwrap (fun _ => true) (fun rs => decide (rs ≠ 0))
    exampleState { cycler := 1, output := 1 } 4 0 100 rfl rfl⟩

/-- C5: an upstream `UnsubscribeOutput` for output `o` is issued iff the
broker currently holds a connection handle and the removal emptied `o`'s
inner mapping; while disconnected nothing at all is sent; an `Unsubscribe`
naming an unknown output, or an unknown subscription id under a known
output, changes no state and emits nothing. -/
theorem unsubscribe_upstream_iff (aliveChan : Chan → Bool)
    (aliveOneshot : OneshotId → Bool) (s : ManagerState) (o : CyclerOutput) (u : Uuid)
    (hwf : WF s.subscribed_outputs) :
    ∃ s' effects,
      output_subscription_manager_step aliveChan aliveOneshot s (Message.Unsubscribe o u)
        = (some s', effects) ∧
      ((∃ id r, Effect.SendRequester r (RequesterMessage.UnsubscribeOutput id o) ∈ effects)
        ↔ (s.requester ≠ none ∧ ∃ senders,
             lookupTable s.subscribed_outputs o = some senders ∧
             removePair senders u = [])) ∧
      (s.requester = none → effects = []) ∧
      (lookupTable s.subscribed_outputs o = none → s' = s ∧ effects = []) ∧
      (∀ senders, lookupTable s.subscribed_outputs o = some senders →
        u ∉ senders.map Prod.fst → s' = s ∧ effects = []) := by
  cases hl : lookupTable s.subscribed_outputs o with
  | none =>
    refine ⟨s, [], by simp [output_subscription_manager_step, hl], ?_,
      fun _ => rfl, fun _ => ⟨rfl, rfl⟩, ?_⟩
    · refine iff_of_false ?_ ?_
      · rintro ⟨id, r, h⟩
        simp at h
      · rintro ⟨-, senders, hs, -⟩
        exact nomatch hs
    · intro senders hs
      exact nomatch hs
  | some senders =>
    have hsne : senders ≠ [] := hwf.2 (o, senders) (lookupTable_mem hl)
    by_cases hemp : removePair senders u = []
    · cases hr : s.requester with
      | some r =>
        refine ⟨{ s with
                    subscribed_outputs := removeTable s.subscribed_outputs o
                    next_message_id := s.next_message_id + 1 },
          unsubscribe o s.next_message_id r,
          by simp [output_subscription_manager_step, hl, hemp, hr], ?_, ?_, ?_, ?_⟩
        · refine iff_of_true ⟨s.next_message_id, r, ?_⟩ ⟨by simp, senders, rfl, hemp⟩
          simp [unsubscribe]
        · intro h
          exact nomatch h
        · intro h
          exact nomatch h
        · intro senders2 hs2 hnm
          obtain rfl := Option.some.inj hs2
          rw [removePair_of_not_mem hnm] at hemp
          exact absurd hemp hsne
      | none =>
        refine ⟨{ s with subscribed_outputs := removeTable s.subscribed_outputs o }, [],
          by simp [output_subscription_manager_step, hl, hemp, hr], ?_, fun _ => rfl,
          ?_, ?_⟩
        · refine iff_of_false ?_ ?_
          · rintro ⟨id, r, h⟩
            simp at h
          · rintro ⟨h, -⟩
            exact h rfl
        · intro h
          exact nomatch h
        · intro senders2 hs2 hnm
          obtain rfl := Option.some.inj hs2
          rw [removePair_of_not_mem hnm] at hemp
          exact absurd hemp hsne
    · refine ⟨{ s with subscribed_outputs :=
                  updateTable s.subscribed_outputs o (fun m => removePair m u) },
        [], ?_, ?_, fun _ => rfl, ?_, ?_⟩
      · simp only [output_subscription_manager_step, hl]
        rw [if_neg hemp]
      · refine iff_of_false ?_ ?_
        · rintro ⟨id, r, h⟩
          simp at h
        · rintro ⟨-, senders2, hs2, hemp2⟩
          obtain rfl := Option.some.inj hs2
          exact hemp hemp2
      · intro h
        exact nomatch h
      · intro senders2 hs2 hnm
        obtain rfl := Option.some.inj hs2
        have hupd := updateTable_self_id hl (fun m => removePair m u)
          (removePair_of_not_mem hnm)
        exact ⟨by rw [hupd], rfl⟩

/-- C5 witness: unsubscribing the last subscriber of output (0,0) at the
connected `exampleState`. -/
theorem unsubscribe_upstream_iff_witness :
    WF exampleState.subscribed_outputs ∧
    (∃ s' effects,
      output_subscription_manager_step (fun _ => true) (fun _ => true) exampleState
          (Message.Unsubscribe { cycler := 0, output := 0 } 0)
        = (some s', effects) ∧
      ((∃ id r, Effect.SendRequester r
            (RequesterMessage.UnsubscribeOutput id { cycler := 0, output := 0 }) ∈ effects)
        ↔ (exampleState.requester ≠ none ∧ ∃ senders,
             lookupTable exampleState.subscribed_outputs { cycler := 0, output := 0 }
               = some senders ∧ removePair senders 0 = [])) ∧
      (exampleState.requester = none → effects = []) ∧
      (lookupTable exampleState.subscribed_outputs { cycler := 0, output := 0 } = none →
        s' = exampleState ∧ effects = []) ∧
      (∀ senders,
        lookupTable exampleState.subscribed_outputs { cycler := 0, output := 0 }
          = some senders →
        (0 : Uuid) ∉ senders.map Prod.fst → s' = exampleState ∧ effects = [])) :=
  ⟨by decide, unsubscribe_upstream_iff (fun _ => true) (fun _ => true) exampleState
    { cycler := 0, output := 0 } 0 (by decide)⟩

/-- C6 counterexample: a subscriber channel that can no longer accept a
value IS a fatal condition — the `Update` fan-out hits
`sender.send(..).await.unwrap()` on the closed channel 5 and the broker
task panics (post state `none`), contradicting the claim that no failure
escalates to task termination. -/
theorem dead_subscriber_panics_broker :
    output_subscription_manager_step (fun c => decide (c ≠ 5)) (fun _ => true)
      { subscribed_outputs := [({ cycler := 0, output := 0 }, [(0, 5)])]
        requester := none
        hierarchy := none
        next_uuid := 1
        next_message_id := 0 }
      (Message.Update 0 [{ output := 0, data := 42 }])
      = (none, [Effect.Panic]) := by
  rfl

/-- C6 amended: a subscriber channel that can no longer accept a value is
fatal to the broker task — if any channel registered for an updated output
is closed, the `Update` handler panics and the broker's state is lost —
while a transport failure of the query flow is only logged and produces no
state-changing mailbox message. -/
theorem dead_subscriber_fatal (aliveOneshot : OneshotId → Bool)
    (aliveChan : Chan → Bool) (s : ManagerState) (cycler : Cycler) (name : Output)
    (v : Value) (senders : Subscribers) (c : Chan)
    (parse : Value → Option OutputHierarchy)
    (hlook : lookupTable s.subscribed_outputs { cycler := cycler, output := name }
      = some senders)
    (hc : c ∈ senders.map Prod.snd) (hdead : aliveChan c = false) :
    (output_subscription_manager_step aliveChan aliveOneshot s
        (Message.Update cycler [{ output := name, data := v }])).1 = none ∧
    (∀ error, query_flow_complete parse (Response.Err error) = none) := by
  constructor
  · have h2 := deliver_all_panics hc hdead v
    simp [output_subscription_manager_step, handle_update, hlook, h2]
  · intro error
    rfl

/-- C3: processing any message from a state with a well-formed table — an
`OutputKey` entry present iff its inner mapping is non-empty, keys
distinct — yields a well-formed table again; moreover `Unsubscribe` of the
last subscriber removes the `OutputKey` entry entirely, and `Unsubscribe`
of a non-last subscriber keeps the entry holding exactly the remaining
subscribers. -/
theorem table_invariant (aliveChan : Chan → Bool) (aliveOneshot : OneshotId → Bool)
    (s : ManagerState) (hwf : WF s.subscribed_outputs) :
    (∀ m s' effects,
      output_subscription_manager_step aliveChan aliveOneshot s m = (some s', effects) →
      WF s'.subscribed_outputs) ∧
    (∀ o u senders s' effects,
      lookupTable s.subscribed_outputs o = some senders →
      removePair senders u = [] →
      output_subscription_manager_step aliveChan aliveOneshot s (Message.Unsubscribe o u)
        = (some s', effects) →
      lookupTable s'.subscribed_outputs o = none) ∧
    (∀ o u senders s' effects,
      lookupTable s.subscribed_outputs o = some senders →
      removePair senders u ≠ [] →
      output_subscription_manager_step aliveChan aliveOneshot s (Message.Unsubscribe o u)
        = (some s', effects) →
      lookupTable s'.subscribed_outputs o = some (removePair senders u) ∧
      ∀ u' c, (u', c) ∈ senders → u' ≠ u → (u', c) ∈ removePair senders u) := by
  refine ⟨?_, ?_, ?_⟩
  · intro m s' effects hstep
    cases m with
    | Connect r =>
      simp only [output_subscription_manager_step, Prod.mk.injEq, Option.some.injEq] at hstep
      rw [← hstep.1]
      exact hwf
    | Disconnect =>
      simp only [output_subscription_manager_step, Prod.mk.injEq, Option.some.injEq] at hstep
      rw [← hstep.1]
      exact hwf
    | Subscribe o c rs =>
      simp only [output_subscription_manager_step] at hstep
      split at hstep
      · simp only [Prod.mk.injEq, Option.some.injEq] at hstep
        rw [← hstep.1]
        show WF (add_subscription s.subscribed_outputs s.next_uuid o c s.requester
          s.next_message_id).1
        cases hl : lookupTable s.subscribed_outputs o with
        | some v =>
          simp only [add_subscription, hl]
          exact WF_updateTable hwf hl (insertPair_ne_nil v s.next_uuid c)
        | none =>
          cases hr : s.requester with
          | some r =>
            simp only [add_subscription, hl, hr]
            exact WF_append_new hwf hl s.next_uuid c
          | none =>
            simp only [add_subscription, hl, hr]
            exact WF_append_new hwf hl s.next_uuid c
      · simp at hstep
    | Unsubscribe o u =>
      simp only [output_subscription_manager_step] at hstep
      split at hstep
      · simp only [Prod.mk.injEq, Option.some.injEq] at hstep
        rw [← hstep.1]
        exact hwf
      · rename_i senders hl
        split at hstep
        · split at hstep
          · simp only [Prod.mk.injEq, Option.some.injEq] at hstep
            rw [← hstep.1]
            exact WF_removeTable hwf o
          · simp only [Prod.mk.injEq, Option.some.injEq] at hstep
            rw [← hstep.1]
            exact WF_removeTable hwf o
        · rename_i hne
          simp only [Prod.mk.injEq, Option.some.injEq] at hstep
          rw [← hstep.1]
          exact WF_updateTable hwf hl hne
    | Update cy outs =>
      simp only [output_subscription_manager_step] at hstep
      split at hstep
      · simp at hstep
      · simp only [Prod.mk.injEq, Option.some.injEq] at hstep
        rw [← hstep.1]
        exact hwf
    | UpdateOutputHierarchy h =>
      simp only [output_subscription_manager_step, Prod.mk.injEq, Option.some.injEq] at hstep
      rw [← hstep.1]
      exact hwf
    | GetOutputHierarchy rs =>
      simp only [output_subscription_manager_step] at hstep
      split at hstep
      · simp only [Prod.mk.injEq, Option.some.injEq] at hstep
        rw [← hstep.1]
        exact hwf
      · simp at hstep
  · intro o u senders s' effects hl hemp hstep
    simp only [output_subscription_manager_step, hl] at hstep
    rw [if_pos hemp] at hstep
    cases hr : s.requester with
    | some r =>
      rw [hr] at hstep
      simp only [Prod.mk.injEq, Option.some.injEq] at hstep
      rw [← hstep.1]
      exact lookupTable_removeTable_self hwf.1 o
    | none =>
      rw [hr] at hstep
      simp only [Prod.mk.injEq, Option.some.injEq] at hstep
      rw [← hstep.1]
      exact lookupTable_removeTable_self hwf.1 o
  · intro o u senders s' effects hl hne hstep
    simp only [output_subscription_manager_step, hl] at hstep
    rw [if_neg hne] at hstep
    simp only [Prod.mk.injEq, Option.some.injEq] at hstep
    refine ⟨?_, ?_⟩
    · rw [← hstep.1]
      exact lookupTable_updateTable_self hl _
    · intro u' c hmem hu
      exact mem_removePair_of_ne hmem hu

/-- C3 witness: the invariant theorem applied at `exampleState`, whose
table is well-formed. -/
theorem table_invariant_witness :
    WF exampleState.subscribed_outputs ∧
    ((∀ m s' effects,
      output_subscription_manager_step (fun _ => true) (fun _ => true) exampleState m
        = (some s', effects) → WF s'.subscribed_outputs) ∧
     (∀ o u senders s' effects,
      lookupTable exampleState.subscribed_outputs o = some senders →
      removePair senders u = [] →
      output_subscription_manager_step (fun _ => true) (fun _ => true) exampleState
          (Message.Unsubscribe o u) = (some s', effects) →
      lookupTable s'.subscribed_outputs o = none) ∧
     (∀ o u senders s' effects,
      lookupTable exampleState.subscribed_outputs o = some senders →
      removePair senders u ≠ [] →
      output_subscription_manager_step (fun _ => true) (fun _ => true) exampleState
          (Message.Unsubscribe o u) = (some s', effects) →
      lookupTable s'.subscribed_outputs o = some (removePair senders u) ∧
      ∀ u' c, (u', c) ∈ senders → u' ≠ u → (u', c) ∈ removePair senders u)) :=
  ⟨by decide, table_invariant (fun _ => true) (fun _ => true) exampleState (by decide)⟩

/-- C4: with live subscriber channels, an `Update` batch leaves the broker
state unchanged, and emits nothing but value deliveries: channel `c`
receives value `v` iff some batch entry carries `v` for an output whose
`CyclerOutput { cycler, output }` key lists `c` among its registered
subscriber channels — so every registered subscriber of an updated key
gets the same value, subscribers of other keys get nothing, and an entry
without a table entry is silently dropped. -/
theorem update_fanout (aliveOneshot : OneshotId → Bool) (s : ManagerState)
    (cycler : Cycler) (outputs : List SubscribedOutput) :
    ∃ effects,
      output_subscription_manager_step (fun _ => true) aliveOneshot s
          (Message.Update cycler outputs) = (some s, effects) ∧
      (∀ c v, Effect.DeliverUpdate c v ∈ effects ↔
        ∃ o ∈ outputs, o.data = v ∧ ∃ senders,
          lookupTable s.subscribed_outputs { cycler := cycler, output := o.output }
            = some senders ∧ c ∈ senders.map Prod.snd) ∧
      (∀ e ∈ effects, ∃ c v, e = Effect.DeliverUpdate c v) := by
  refine ⟨(handle_update (fun _ => true) s.subscribed_outputs cycler outputs).1, ?_, ?_, ?_⟩
  · simp [output_subscription_manager_step,
      handle_update_alive_no_panic s.subscribed_outputs cycler outputs]
  · intro c v
    exact handle_update_alive_mem s.subscribed_outputs cycler outputs c v
  · exact handle_update_alive_only_deliveries s.subscribed_outputs cycler outputs

/-- C6 amended witness: channel 5 subscribed to output (0,0) is closed; an
update for that output kills the broker task. -/
theorem dead_subscriber_fatal_witness :
    lookupTable exampleStateDead.subscribed_outputs { cycler := 0, output := 0 }
      = some [(0, 5)] ∧
    (5 : Chan) ∈ ([(0, 5)] : Subscribers).map Prod.snd ∧
    (fun c : Chan => decide (c ≠ 5)) 5 = false ∧
    ((output_subscription_manager_step (fun c => decide (c ≠ 5)) (fun _ => true)
        exampleStateDead (Message.Update 0 [{ output := 0, data := 42 }])).1 = none ∧
     (∀ error, query_flow_complete (fun _ => none) (Response.Err error) = none)) :=
  ⟨rfl, by decide, rfl, dead_subscriber_fatal (fun _ => true) (fun c => decide (c ≠ 5))
    exampleStateDead 0 0 42 [(0, 5)] 5 (fun _ => none) rfl (by decide) rfl⟩

end Communication
